import Mathlib

/-!
Shallow embedding of the PDF417 detector in
src/deps/zxing/core/src/zxing/pdf417/detector/3Detector.cpp
(node-dv vendored zxing, namespace zxing::pdf417, class Detector).

Modelling conventions:
- The binary image (BitMatrix, defined outside this file) is a width, a
  height and a pixel test; pixels are Bool (true = black).
- C++ size_t counters and pixel coordinates become Nat; C++ int becomes Int.
- float coordinates become exact rationals.  Every concrete input used in the
  theorems below keeps all intermediate float values integral or small
  rationals that IEEE single precision represents exactly, so the rational
  model agrees with the float computation there.
- Detector::detect throws NotFoundException with distinct messages; we model
  the outcome as Except DetError with one constructor per message.
-/

namespace PDF417

/-- A binary image: width, height and a per-pixel black test. -/
structure Matrix where
  width : Nat
  height : Nat
  get : Nat → Nat → Bool

/-- A 2D point with exact rational coordinates (models zxing Point /
ResultPoint whose coordinates are float). -/
structure Point where
  x : ℚ
  y : ℚ
deriving DecidableEq, Repr

/-- A line given by two points (models zxing Line). -/
structure Line where
  start : Point
  stop : Point
deriving DecidableEq, Repr

/-- std::numeric_limits of int, max(): the sentinel patternMatchVariance
returns for a non-match. -/
def INT_MAX : Int := 2147483647

/-- MAX_AVG_VARIANCE = (int)((1 << 8) * 0.42f) = 107
(0.42f = 0.41999998688697815, times 256 is 107.5199966…, truncated). -/
def MAX_AVG_VARIANCE : Int := 107

/-- MAX_INDIVIDUAL_VARIANCE = (int)((1 << 8) * 0.8f) = 204
(0.8f = 0.800000011920929, times 256 is 204.80000305…, truncated). -/
def MAX_INDIVIDUAL_VARIANCE : Int := 204

/-- START_PATTERN = 8, 1, 1, 1, 1, 1, 1, 3. -/
def START_PATTERN : List Nat := [8, 1, 1, 1, 1, 1, 1, 3]

/-- START_PATTERN_REVERSE = 3, 1, 1, 1, 1, 1, 1, 8. -/
def START_PATTERN_REVERSE : List Nat := [3, 1, 1, 1, 1, 1, 1, 8]

/-- STOP_PATTERN = 7, 1, 1, 3, 1, 1, 1, 2, 1. -/
def STOP_PATTERN : List Nat := [7, 1, 1, 3, 1, 1, 1, 2, 1]

/-- STOP_PATTERN_REVERSE = 1, 2, 1, 1, 1, 3, 1, 1, 7. -/
def STOP_PATTERN_REVERSE : List Nat := [1, 2, 1, 1, 1, 3, 1, 1, 7]

/-- The total observed run length of patternMatchVariance: the sum of the
counters.  The C++ loops run for numCounters = counters.size() elements
reading pattern[i] alongside; we pair the two lists elementwise (all call
sites use equal lengths), so the two sums range over the paired
elements. -/
def pmvTotal (counters pattern : List Nat) : Nat :=
  ((counters.zip pattern).map (fun q => q.1)).sum

/-- The nominal pattern length of patternMatchVariance: the sum of the
pattern elements (paired as in pmvTotal). -/
def pmvNominal (counters pattern : List Nat) : Nat :=
  ((counters.zip pattern).map (fun q => q.2)).sum

/-- unitBarWidth = (total << 8) / patternLength: the 256-scaled estimated
module width.  total and patternLength are size_t, so the division is
unsigned: Nat arithmetic. -/
def pmvUnitBarWidth (counters pattern : List Nat) : Int :=
  ((pmvTotal counters pattern * 256) / pmvNominal counters pattern : Nat)

/-- maxIndividualVariance = (maxIndividualVariance * unitBarWidth) >> 8:
the per-element cap rescaled by the module width; the arithmetic shift on
int is floor division by 256. -/
def pmvCap (counters pattern : List Nat) (maxIndividualVariance : Int) : Int :=
  (maxIndividualVariance * pmvUnitBarWidth counters pattern).fdiv 256

/-- One element of the scoring loop of patternMatchVariance:
counter = counters[x] << 8, scaledPattern = pattern[x] * unitBarWidth,
variance = their absolute difference (written with the source's
conditional). -/
def pmvVariance (unitBarWidth : Int) (cp : Nat × Nat) : Int :=
  let counter : Int := (cp.1 : Int) * 256
  let scaledPattern : Int := (cp.2 : Int) * unitBarWidth
  if counter > scaledPattern then counter - scaledPattern
  else scaledPattern - counter

/-- Body of the scoring loop of Detector::patternMatchVariance.
Runs over the paired (counter, pattern) elements; accumulates totalVariance,
returning INT_MAX as soon as one element exceeds maxIndividualVariance
(already scaled by the caller), and finally totalVariance / total.
totalVariance is a sum of absolute differences, hence nonnegative, so the
final division (int by size_t in C++, performed unsigned) is plain
truncating division on nonnegative values; we use Int.ediv which agrees
with it there. -/
def pmvLoop (unitBarWidth maxIndividualVariance : Int) (total : Nat) :
    List (Nat × Nat) → Int → Int
  | [], totalVariance => totalVariance.ediv (total : Int)
  | cp :: rest, totalVariance =>
    let variance := pmvVariance unitBarWidth cp
    if variance > maxIndividualVariance then INT_MAX
    else pmvLoop unitBarWidth maxIndividualVariance total rest
      (totalVariance + variance)

/-- Detector::patternMatchVariance, assembled from the pieces above in
source order: fail when total < patternLength, otherwise scale the cap
and run the scoring loop with totalVariance starting at 0. -/
def patternMatchVariance (counters pattern : List Nat)
    (maxIndividualVariance : Int) : Int :=
  if pmvTotal counters pattern < pmvNominal counters pattern then INT_MAX
  else
    pmvLoop (pmvUnitBarWidth counters pattern)
      (pmvCap counters pattern maxIndividualVariance)
      (pmvTotal counters pattern) (counters.zip pattern) 0

/-- Scanner state of Detector::findGuardPattern: the run-length counters,
the index of the currently filling counter, the column where the current
window starts, and the colour currently being counted. -/
structure FgpState where
  counters : List Nat
  counterPosition : Nat
  patternStart : Nat
  isWhite : Bool
deriving DecidableEq, Repr

/-- One iteration of the x-loop of Detector::findGuardPattern at column x
with pixel value pixel.  Returns the updated state, or the matched span
(patternStart, x) when a full window scores under MAX_AVG_VARIANCE. -/
def fgpStep (pattern : List Nat) (s : FgpState) (x : Nat) (pixel : Bool) :
    FgpState ⊕ (Nat × Nat) :=
  if xor pixel s.isWhite then
    .inl { s with counters :=
      s.counters.set s.counterPosition (s.counters.getD s.counterPosition 0 + 1) }
  else
    if s.counterPosition = pattern.length - 1 then
      if patternMatchVariance s.counters pattern MAX_INDIVIDUAL_VARIANCE
          < MAX_AVG_VARIANCE then
        .inr (s.patternStart, x)
      else
        -- near miss: drop the first two runs, shift the rest left by two,
        -- zero the freed slots, back up one position, then fall through to
        -- the shared tail counters[counterPosition] = 1; isWhite = !isWhite
        let ps := s.patternStart + s.counters.getD 0 0 + s.counters.getD 1 0
        let shifted := s.counters.drop 2 ++ [0, 0]
        let cp := s.counterPosition - 1
        .inl { counters := shifted.set cp 1
               counterPosition := cp
               patternStart := ps
               isWhite := !s.isWhite }
    else
      let cp := s.counterPosition + 1
      .inl { s with counters := s.counters.set cp 1
                    counterPosition := cp
                    isWhite := !s.isWhite }

/-- The x-loop of Detector::findGuardPattern over the listed columns. -/
def fgpLoop (m : Matrix) (row : Nat) (pattern : List Nat) :
    List Nat → FgpState → Option (Nat × Nat)
  | [], _ => none
  | x :: xs, s =>
    match fgpStep pattern s x (m.get x row) with
    | .inr r => some r
    | .inl s2 => fgpLoop m row pattern xs s2

/-- Detector::findGuardPattern: scan columns x = column, …, column+width-1
of the given row for the pattern; counters start zeroed (the C++ re-zeroes
the shared scratch buffer on entry). -/
def findGuardPattern (m : Matrix) (column row width : Nat) (whiteFirst : Bool)
    (pattern : List Nat) : Option (Nat × Nat) :=
  fgpLoop m row pattern (List.range' column width)
    ⟨List.replicate pattern.length 0, 0, column, whiteFirst⟩

/-- The rows visited by for (size_t i = 0; i < height; i += rowStep),
in visit order (rowStep > 0; for rowStep = 0 the C++ loop does not
terminate and the model is vacuous). -/
def rowsUp (height rowStep : Nat) : List Nat :=
  (List.range height).filter (fun i => i % rowStep == 0)

/-- The rows visited by for (long i = height - 1; i > 0; i -= rowStep),
in visit order: every i with 0 < i ≤ height - 1 congruent to height - 1
modulo rowStep, descending. -/
def rowsDown (height rowStep : Nat) : List Nat :=
  ((List.range height).filter
    (fun i => decide (0 < i) && ((height - 1 - i) % rowStep == 0))).reverse

/-- First row (in visit order) on which the row scan f yields a guard
pattern span, together with that span: models the for-loops of
findVertices / findVertices180 that break on the first match. -/
def firstRowMatch (f : Nat → Option (Nat × Nat)) :
    List Nat → Option ((Nat × Nat) × Nat)
  | [] => none
  | i :: rest =>
    match f i with
    | some loc => some (loc, i)
    | none => firstRowMatch f rest

/-- A point from integer column/row coordinates. -/
def natPoint (x y : Nat) : Point := ⟨(x : ℚ), (y : ℚ)⟩

/-- Detector::findVertices.  Result slot layout (COUNT_VERTICES = 16):
0-3 outer corners (top left, bottom left, top right, bottom right),
4-7 the matching codeword-area corners, 8-15 left empty for
correctVertices.  Each of the four scans runs only if the previous one
found a row (the found flag in the C++); if the chain stops early the
result vector is cleared, never returned partially filled. -/
def findVertices (m : Matrix) (rowStep : Nat) : List (Option Point) :=
  let height := m.height
  let width := m.width
  let base : List (Option Point) := List.replicate 16 none
  -- Top Left
  match firstRowMatch
      (fun i => findGuardPattern m 0 i width false START_PATTERN)
      (rowsUp height rowStep) with
  | none => []
  | some (loc0, i0) =>
    let r0 := (base.set 0 (some (natPoint loc0.1 i0))).set 4
      (some (natPoint loc0.2 i0))
    -- Bottom left
    match firstRowMatch
        (fun i => findGuardPattern m 0 i width false START_PATTERN)
        (rowsDown height rowStep) with
    | none => []
    | some (loc1, i1) =>
      let r1 := (r0.set 1 (some (natPoint loc1.1 i1))).set 5
        (some (natPoint loc1.2 i1))
      -- Top right
      match firstRowMatch
          (fun i => findGuardPattern m 0 i width false STOP_PATTERN)
          (rowsUp height rowStep) with
      | none => []
      | some (loc2, i2) =>
        let r2 := (r1.set 2 (some (natPoint loc2.2 i2))).set 6
          (some (natPoint loc2.1 i2))
        -- Bottom right
        match firstRowMatch
            (fun i => findGuardPattern m 0 i width false STOP_PATTERN)
            (rowsDown height rowStep) with
        | none => []
        | some (loc3, i3) =>
          (r2.set 3 (some (natPoint loc3.2 i3))).set 7
            (some (natPoint loc3.1 i3))

/-- Detector::findVertices180: same four-step chain with the reversed
patterns, reversed row directions and, for the start pattern, the scan
restricted to the right half of the image (halfWidth = width >> 1). -/
def findVertices180 (m : Matrix) (rowStep : Nat) : List (Option Point) :=
  let height := m.height
  let width := m.width
  let halfWidth := width / 2
  let base : List (Option Point) := List.replicate 16 none
  -- Top Left
  match firstRowMatch
      (fun i => findGuardPattern m halfWidth i halfWidth true
        START_PATTERN_REVERSE)
      (rowsDown height rowStep) with
  | none => []
  | some (loc0, i0) =>
    let r0 := (base.set 0 (some (natPoint loc0.2 i0))).set 4
      (some (natPoint loc0.1 i0))
    -- Bottom Left
    match firstRowMatch
        (fun i => findGuardPattern m halfWidth i halfWidth true
          START_PATTERN_REVERSE)
        (rowsUp height rowStep) with
    | none => []
    | some (loc1, i1) =>
      let r1 := (r0.set 1 (some (natPoint loc1.2 i1))).set 5
        (some (natPoint loc1.1 i1))
      -- Top Right
      match firstRowMatch
          (fun i => findGuardPattern m 0 i halfWidth false
            STOP_PATTERN_REVERSE)
          (rowsDown height rowStep) with
      | none => []
      | some (loc2, i2) =>
        let r2 := (r1.set 2 (some (natPoint loc2.1 i2))).set 6
          (some (natPoint loc2.2 i2))
        -- Bottom Right
        match firstRowMatch
            (fun i => findGuardPattern m 0 i halfWidth false
              STOP_PATTERN_REVERSE)
            (rowsUp height rowStep) with
        | none => []
        | some (loc3, i3) =>
          (r2.set 3 (some (natPoint loc3.1 i3))).set 7
            (some (natPoint loc3.2 i3))

/-- Truncation toward zero: the effect of a C++ (int) cast on a float. -/
def ratTrunc (q : ℚ) : Int := if 0 ≤ q then ⌊q⌋ else ⌈q⌉

/-- Detector::round: (int)(d + 0.5f), rounding to nearest with .5 up
(for the nonnegative values that occur here, truncation of d + 1/2 is
its floor). -/
def cppRound (d : ℚ) : Int := ratTrunc (d + 1 / 2)

/-- BitMatrix::get at possibly out-of-range signed coordinates.  zxing
BitMatrix stores each row in 32-bit words whose padding bits are never
set, so a read past the nominal bounds yields false (white); negative
coordinates do not occur in the executions proved below.  We model every
out-of-range read as white. -/
def mgetI (m : Matrix) (x y : Int) : Bool :=
  if 0 ≤ x ∧ x < (m.width : Int) ∧ 0 ≤ y ∧ y < (m.height : Int) then
    m.get x.toNat y.toNat
  else false

/-- Failure taxonomy of Detector::detect and its helpers: one constructor
per NotFoundException message thrown in the source. -/
inductive DetError where
  /-- No vertices found. -/
  | noVerticesFound : DetError
  /-- Cannot find enough PDF417 guard patterns! -/
  | insufficientGuardSeparation : DetError
  /-- PDF:Detector: cannot find the crossing of parallel lines! -/
  | parallelLines : DetError
  /-- PDF:Detector: crossing points out of region! -/
  | crossingOutOfBounds : DetError
  /-- Bad module width. -/
  | badModuleWidth : DetError
  /-- Bad dimension. -/
  | badDimension : DetError
deriving DecidableEq, Repr

/-- Detector::intersection.  The float computation returns the point
(infinity, infinity) when the denominator is below 1e-12 in absolute
value; we model that sentinel as none. -/
def intersection (a b : Line) : Option Point :=
  let dxa := a.start.x - a.stop.x
  let dxb := b.start.x - b.stop.x
  let dya := a.start.y - a.stop.y
  let dyb := b.start.y - b.stop.y
  let p := a.start.x * a.stop.y - a.start.y * a.stop.x
  let q := b.start.x * b.stop.y - b.start.y * b.stop.x
  let denom := dxa * dyb - dya * dxb
  if |denom| < 1 / 1000000000000 then none
  else some ⟨(p * dxb - dxa * q) / denom, (p * dyb - dya * q) / denom⟩

/-- Detector::findCrossingPoint on the two lines (p1,p2) and (p3,p4):
the parallel sentinel becomes the parallel-lines failure; a crossing
whose rounded coordinates leave the image is the out-of-region failure;
otherwise the (unrounded) crossing is returned. -/
def findCrossingPoint (m : Matrix) (p1 p2 p3 p4 : Point) :
    Except DetError Point :=
  match intersection ⟨p1, p2⟩ ⟨p3, p4⟩ with
  | none => .error .parallelLines
  | some r =>
    let x := cppRound r.x
    let y := cppRound r.y
    if x < 0 ∨ (m.width : Int) ≤ x ∨ y < 0 ∨ (m.height : Int) ≤ y then
      .error .crossingOutOfBounds
    else .ok r

/-- Result of the wide-bar tracing loop: the final point, the pixel tests
made at the walking position and its guarded neighbours (in bounds in the
proofs below), and the thin-bar look-ahead pixel tests at columns
x + nextBarX and x + nextBarX + 1 (which may leave the image). -/
structure WideBarTrace where
  x : Int
  y : Int
  mainQueries : List (Int × Int)
  lookQueries : List (Int × Int)
deriving DecidableEq, Repr

/-- The while (!isEnd) loop of Detector::findWideBarTopBottom, with the
pixel tests it performs logged.  The loop provably terminates in at most
2 * height + 2 iterations (y moves monotonically by rowStep except for
the final one-step back-off, and at most one sideways step precedes each
vertical step); fuel is instantiated above that bound. -/
def wideBarLoop (m : Matrix) (nextBarX rowStep yStart : Int) :
    Nat → Int → Int → WideBarTrace
  | 0, x, y => ⟨x, y, [], []⟩
  | fuel + 1, x, y =>
    if mgetI m x y then
      -- if the thin bar to the right ended, stop as well;
      -- !get(x+nextBarX, y) && !get(x+nextBarX+1, y) short-circuits
      let look1 := mgetI m (x + nextBarX) y
      let qLook := (x + nextBarX, y) ::
        (if look1 then [] else [(x + nextBarX + 1, y)])
      let isEnd := !look1 && !mgetI m (x + nextBarX + 1) y
      let y2 := y + rowStep
      if y2 ≤ 0 ∨ (m.height : Int) - 1 ≤ y2 then
        -- end of barcode image reached
        ⟨x, y2, [(x, y)], qLook⟩
      else if isEnd then ⟨x, y2, [(x, y)], qLook⟩
      else
        let r := wideBarLoop m nextBarX rowStep yStart fuel x y2
        ⟨r.x, r.y, (x, y) :: r.mainQueries, qLook ++ r.lookQueries⟩
    else
      -- look sidewise whether the black bar continues (skewed image);
      -- x > 0 && get(x-1, y) and x < width-1 && get(x+1, y) short-circuit
      let qL : List (Int × Int) := if 0 < x then [(x - 1, y)] else []
      if 0 < x ∧ mgetI m (x - 1) y then
        let r := wideBarLoop m nextBarX rowStep yStart fuel (x - 1) y
        ⟨r.x, r.y, (x, y) :: qL ++ r.mainQueries, r.lookQueries⟩
      else
        let qR : List (Int × Int) :=
          if x < (m.width : Int) - 1 then [(x + 1, y)] else []
        if x < (m.width : Int) - 1 ∧ mgetI m (x + 1) y then
          let r := wideBarLoop m nextBarX rowStep yStart fuel (x + 1) y
          ⟨r.x, r.y, (x, y) :: qL ++ qR ++ r.mainQueries, r.lookQueries⟩
        else
          -- end of pattern; turn back one step unless still on the start row
          let yEnd := if y ≠ yStart then y - rowStep else y
          ⟨x, yEnd, (x, y) :: qL ++ qR, []⟩

/-- The for-loop of findWideBarTopBottom that finds the offset of the thin
bar to the right: advance nextBarX while below width until a white-to-black
edge !get(nextBarX-1, y) && get(nextBarX, y) appears; queries logged
(the second test short-circuits). -/
def nextBarSearch (m : Matrix) (y : Int) :
    Nat → Int → Int × List (Int × Int)
  | 0, nbx => (nbx, [])
  | fuel + 1, nbx =>
    if nbx < (m.width : Int) then
      let prevBlack := mgetI m (nbx - 1) y
      let q := (nbx - 1, y) :: (if prevBlack then [] else [(nbx, y)])
      if !prevBlack && mgetI m nbx y then (nbx, q)
      else
        let r := nextBarSearch m y fuel (nbx + 1)
        (r.1, q ++ r.2)
    else (nbx, [])

/-- The linear interpolation of findWideBarTopBottom between the outer
and the inner corner: verticeStart.x + barDiff * offset / lenPattern,
used for barStart (offset = startWideBar) and barEnd
(offset = endWideBar). -/
def wbInterp (verticeStart verticeEnd : Point) (offset lenPattern : Int) : ℚ :=
  let barDiff := verticeEnd.x - verticeStart.x
  verticeStart.x + barDiff * (offset : ℚ) / (lenPattern : ℚ)

/-- Detector::findWideBarTopBottom for one corner: verticeStart/verticeEnd
are vertices[offsetVertice] and vertices[offsetVertice + 4]; the result
point (stored into vertices[offsetVertice + 8] by the caller) is returned
together with the logged pixel tests. -/
def findWideBarTopBottom (m : Matrix) (verticeStart verticeEnd : Point)
    (startWideBar lenWideBar lenPattern : Int) (rowStep : Int) :
    WideBarTrace :=
  let endWideBar := startWideBar + lenWideBar
  let barStart := wbInterp verticeStart verticeEnd startWideBar lenPattern
  let barEnd := wbInterp verticeStart verticeEnd endWideBar lenPattern
  let x := cppRound ((barStart + barEnd) / 2)
  let yStart := cppRound verticeStart.y
  -- int nextBarX = std::max(barStart, barEnd) + 1 (float truncated to int)
  let nbx0 := ratTrunc (max barStart barEnd + 1)
  let search := nextBarSearch m yStart ((m.width : Int) - nbx0).toNat nbx0
  let nextBarX := search.1 - x
  let r := wideBarLoop m nextBarX rowStep yStart (2 * m.height + 8) x yStart
  ⟨r.x, r.y, search.2 ++ r.mainQueries, r.lookQueries⟩

/-- The eight vertices produced by a successful findVertices /
findVertices180 call: outer corners 0-3 and codeword-area corners 4-7. -/
structure VertexSet where
  v0 : Point
  v1 : Point
  v2 : Point
  v3 : Point
  v4 : Point
  v5 : Point
  v6 : Point
  v7 : Point
deriving DecidableEq, Repr

/-- Extraction of slots 0-7 from the vector returned by findVertices /
findVertices180; none when the vector is empty (or, unreachably given
the all-or-nothing population, partially filled). -/
def toVertexSet : List (Option Point) → Option VertexSet
  | some p0 :: some p1 :: some p2 :: some p3 ::
    some p4 :: some p5 :: some p6 :: some p7 :: _ =>
    some ⟨p0, p1, p2, p3, p4, p5, p6, p7⟩
  | _ => none

/-- The extended vertex vector after correctVertices: slots 0-7 as located,
8-11 the wide-bar border points, 12-15 the final codeword-area corners. -/
structure CorrectedVertices where
  base : VertexSet
  v8 : Point
  v9 : Point
  v10 : Point
  v11 : Point
  v12 : Point
  v13 : Point
  v14 : Point
  v15 : Point
deriving DecidableEq, Repr

/-- Detector::correctVertices: the guard-separation precondition, then the
four wide-bar traces (vertices 8-11), then the four crossings
(vertices 12-15), each of which can fail. -/
def correctVertices (m : Matrix) (v : VertexSet) (upsideDown : Bool) :
    Except DetError CorrectedVertices :=
  let isLowLeft := |v.v4.y - v.v5.y| < 20
  let isLowRight := |v.v6.y - v.v7.y| < 20
  if isLowLeft ∨ isLowRight then .error .insufficientGuardSeparation
  else
    let t8 := findWideBarTopBottom m v.v0 v.v4 0 8 17
      (if upsideDown then 1 else -1)
    let t9 := findWideBarTopBottom m v.v1 v.v5 0 8 17
      (if upsideDown then -1 else 1)
    let t10 := findWideBarTopBottom m v.v2 v.v6 11 7 18
      (if upsideDown then 1 else -1)
    let t11 := findWideBarTopBottom m v.v3 v.v7 11 7 18
      (if upsideDown then -1 else 1)
    let p8 : Point := ⟨(t8.x : ℚ), (t8.y : ℚ)⟩
    let p9 : Point := ⟨(t9.x : ℚ), (t9.y : ℚ)⟩
    let p10 : Point := ⟨(t10.x : ℚ), (t10.y : ℚ)⟩
    let p11 : Point := ⟨(t11.x : ℚ), (t11.y : ℚ)⟩
    match findCrossingPoint m v.v4 v.v5 p8 p10 with
    | .error e => .error e
    | .ok p12 =>
      match findCrossingPoint m v.v4 v.v5 p9 p11 with
      | .error e => .error e
      | .ok p13 =>
        match findCrossingPoint m v.v6 v.v7 p8 p10 with
        | .error e => .error e
        | .ok p14 =>
          match findCrossingPoint m v.v6 v.v7 p9 p11 with
          | .error e => .error e
          | .ok p15 => .ok ⟨v, p8, p9, p10, p11, p12, p13, p14, p15⟩

/-!
ResultPoint::distance (the Euclidean distance, computed in float in
ResultPoint.cpp, which is outside this file) is abstracted as an explicit
parameter dist of the functions below; every theorem about them holds for
an arbitrary dist, and concrete instantiations choose exact rational
distance values.
-/

/-- Detector::computeModuleWidth: average the two left guard widths over
17 modules and the two right guard widths over 18 modules, then average
the sides. -/
def computeModuleWidth (dist : Point → Point → ℚ) (v : VertexSet) : ℚ :=
  let pixels1 := dist v.v0 v.v4
  let pixels2 := dist v.v1 v.v5
  let moduleWidth1 := (pixels1 + pixels2) / (17 * 2)
  let pixels3 := dist v.v6 v.v2
  let pixels4 := dist v.v7 v.v3
  let moduleWidth2 := (pixels3 + pixels4) / (18 * 2)
  (moduleWidth1 + moduleWidth2) / 2

/-- Detector::computeDimension: the top and bottom edge lengths of the
codeword area, each divided by the module width and rounded to nearest,
averaged by an arithmetic shift and snapped to a multiple of 17 by C++
int division ((x >> 1) + 8) / 17) * 17. -/
def computeDimension (dist : Point → Point → ℚ)
    (topLeft topRight bottomLeft bottomRight : Point)
    (moduleWidth : ℚ) : Int :=
  let topRowDimension := cppRound (dist topLeft topRight / moduleWidth)
  let bottomRowDimension := cppRound (dist bottomLeft bottomRight / moduleWidth)
  (((topRowDimension + bottomRowDimension).fdiv 2 + 8).tdiv 17) * 17

/-- Detector::computeYDimension: left and right edge lengths divided by
the module width, rounded, averaged by an arithmetic shift (no snapping). -/
def computeYDimension (dist : Point → Point → ℚ)
    (topLeft topRight bottomLeft bottomRight : Point)
    (moduleWidth : ℚ) : Int :=
  let leftColumnDimension := cppRound (dist topLeft bottomLeft / moduleWidth)
  let rightColumnDimension := cppRound (dist topRight bottomRight / moduleWidth)
  (leftColumnDimension + rightColumnDimension).fdiv 2

/-- What Detector::sampleLines passes to
PerspectiveTransform::quadrilateralToQuadrilateral and
GridSampler::sampleGrid: the sampled matrix dimensions and the four
source-image points that the canonical rectangle corners
(0,0), (width,0), (0,height), (width,height) are mapped to, in that
corner order.  The actual grid resampling is performed by GridSampler
and LinesSampler, outside this file. -/
structure SampleSpec where
  width : Int
  height : Int
  srcTopLeft : Point
  srcTopRight : Point
  srcBottomLeft : Point
  srcBottomRight : Point
deriving DecidableEq, Repr

/-- Detector::sampleLines.  Parameter names follow the source declaration
Detector::sampleLines(vertices, int dimensionY, int dimension); note that
the call site in detect() passes (vertices, dimension, yDimension), so
dimensionY receives the row dimension and dimension receives the column
dimension.  sampleDimensionX = dimension * 8, sampleDimensionY =
dimensionY * 4; the canonical corners map to vertices 12, 14, 13, 15. -/
def sampleLines (vertices : CorrectedVertices) (dimensionY dimension : Int) :
    SampleSpec :=
  let sampleDimensionX := dimension * 8
  let sampleDimensionY := dimensionY * 4
  { width := sampleDimensionX
    height := sampleDimensionY
    srcTopLeft := vertices.v12
    srcTopRight := vertices.v14
    srcBottomLeft := vertices.v13
    srcBottomRight := vertices.v15 }

/-- The detector result: the sampling request (standing for the sampled
bit grid produced from it by GridSampler/LinesSampler), the dimensions
handed to LinesSampler, and the four output-space corner points
(0, h), (0, 0), (w, 0), (w, h) built in detect(). -/
structure DetResult where
  sample : SampleSpec
  dimension : Int
  yDimension : Int
  points : List Point
deriving DecidableEq, Repr

/-- The tail of Detector::detect after a vertex set was located (lines
102-137 of the source): correct the vertices, check the module width,
compute and check the dimension, compute the y dimension, and build the
sampling request and the output corner points. -/
def detectWithVertices (dist : Point → Point → ℚ) (m : Matrix)
    (v : VertexSet) (upsideDown : Bool) : Except DetError DetResult :=
  match correctVertices m v upsideDown with
  | .error e => .error e
  | .ok vertices =>
  let moduleWidth := computeModuleWidth dist vertices.base
  if moduleWidth < 1 then
    .error .badModuleWidth
  else
    let dimension := computeDimension dist vertices.v12 vertices.v14
      vertices.v13 vertices.v15 moduleWidth
    if dimension < 1 then
      .error .badDimension
    else
      let yDimension := max (computeYDimension dist vertices.v12 vertices.v14
        vertices.v13 vertices.v15 moduleWidth) dimension
      let linesMatrix := sampleLines vertices dimension yDimension
      .ok { sample := linesMatrix
            dimension := dimension
            yDimension := yDimension
            points := [⟨0, (linesMatrix.height : ℚ)⟩, ⟨0, 0⟩,
              ⟨(linesMatrix.width : ℚ), 0⟩,
              ⟨(linesMatrix.width : ℚ), (linesMatrix.height : ℚ)⟩] }

/-- Detector::detect: try the upright orientation with row step 8 over the
full row width; only if it yields no vertices try the 180-degree variant;
if neither yields vertices, fail with the no-symbol outcome (No vertices
found).  The vector returned by a successful scan always has slots 0-7
populated, so toVertexSet on a nonempty vector cannot fail. -/
def detect (dist : Point → Point → ℚ) (m : Matrix) :
    Except DetError DetResult :=
  let rowStep : Nat := 8
  match findVertices m rowStep with
  | [] =>
    match findVertices180 m rowStep with
    | [] => .error .noVerticesFound
    | l =>
      match toVertexSet l with
      | some v => detectWithVertices dist m v true
      | none => .error .noVerticesFound
  | l =>
    match toVertexSet l with
    | some v => detectWithVertices dist m v false
    | none => .error .noVerticesFound

/-- The Detector object state: the image_ member is its only data member
and detect() never assigns to it.  Running detect on the object returns
the result together with the (unchanged) object state. -/
def detectOnState (dist : Point → Point → ℚ) (image : Matrix) :
    Except DetError DetResult × Matrix :=
  (detect dist image, image)

/-!
Concrete instances used by witnesses and counterexamples.

exampleMatrix is a 40 x 49 synthetic PDF417 fragment: white margin rows
0-1 and 47-48, and on rows 2-46 the column runs
8B 1W 1B 1W 1B 1W 1B 3W (the start pattern, columns 0-16), one filler
bar (column 17), two white columns, then
7B 1W 1B 3W 1B 1W 1B 2W 1B (the stop pattern, columns 20-37) and two
white columns. -/

/-- Black columns of the barcode rows of exampleMatrix. -/
def exampleBarColumn (x : Nat) : Bool :=
  x < 8 || x == 9 || x == 11 || x == 13 || x == 17 ||
  (20 ≤ x && x ≤ 26) || x == 28 || x == 32 || x == 34 || x == 37

/-- The synthetic barcode image. -/
def exampleMatrix : Matrix :=
  ⟨40, 49, fun x y => (2 ≤ y && y ≤ 46) && exampleBarColumn x⟩

/-- The vertex set findVertices locates on exampleMatrix with row step 8. -/
def exampleVertices : VertexSet :=
  ⟨⟨0, 8⟩, ⟨0, 40⟩, ⟨38, 8⟩, ⟨38, 40⟩, ⟨17, 8⟩, ⟨17, 40⟩, ⟨20, 8⟩, ⟨20, 40⟩⟩

/-- The corrected vertices correctVertices produces on exampleMatrix from
exampleVertices. -/
def exampleCorrected : CorrectedVertices :=
  ⟨exampleVertices, ⟨4, 2⟩, ⟨4, 46⟩, ⟨24, 2⟩, ⟨24, 46⟩,
    ⟨17, 2⟩, ⟨17, 46⟩, ⟨20, 2⟩, ⟨20, 46⟩⟩

/-- The horizontal distance: the exact Euclidean distance of the
same-row point pairs of exampleMatrix.  It gives module width 1 and
codeword-area edges of 3 modules, so computeDimension yields 0. -/
def horizontalDist : Point → Point → ℚ := fun p q => |q.x - p.x|

/-- Modelled from the spec: ResultPoint::distance (ResultPoint.cpp,
outside this file) is the Euclidean distance between two points.  For
two points sharing a row or sharing a column, the Euclidean distance is
exactly the absolute difference of the remaining coordinate, which this
function returns.  Every distance the pipeline evaluates on the
rectangular synthetic symbols below is between two such axis-aligned
corners (same row for the guard widths and the top/bottom codeword
edges, same column for the left/right codeword edges), so on those
traces this function coincides with the true Euclidean distance; the
never-evaluated oblique case returns 0. -/
def axisDist : Point → Point → ℚ := fun p q =>
  if p.x = q.x then |q.y - p.y|
  else if p.y = q.y then |q.x - p.x| else 0

/-- Black columns of the barcode rows of tallMatrix: the start pattern
(columns 0-16, runs 8B 1W 1B 1W 1B 1W 1B 3W), six filler codeword bars
(columns 17, 19, 21, 25 black), and the stop pattern (columns 29-46,
runs 7B 1W 1B 3W 1B 1W 1B 2W 1B). -/
def tallBarColumn (x : Nat) : Bool :=
  x < 8 || x == 9 || x == 11 || x == 13 || x == 17 || x == 19 || x == 21 ||
  x == 25 || (29 ≤ x && x ≤ 35) || x == 37 || x == 41 || x == 43 || x == 46

/-- A second synthetic barcode image, 49 x 49: white margin rows 0-1 and
47-48, barcode rows 2-46 with a 12-column codeword area between the
start and stop patterns, so that under the true Euclidean distance the
snapped row dimension is 17 while the column dimension is 44. -/
def tallMatrix : Matrix :=
  ⟨49, 49, fun x y => (2 ≤ y && y ≤ 46) && tallBarColumn x⟩

/-- The vertex set findVertices locates on tallMatrix with row step 8. -/
def tallVertices : VertexSet :=
  ⟨⟨0, 8⟩, ⟨0, 40⟩, ⟨47, 8⟩, ⟨47, 40⟩, ⟨17, 8⟩, ⟨17, 40⟩, ⟨29, 8⟩, ⟨29, 40⟩⟩

/-- The corrected vertices correctVertices produces on tallMatrix from
tallVertices. -/
def tallCorrected : CorrectedVertices :=
  ⟨tallVertices, ⟨4, 2⟩, ⟨4, 46⟩, ⟨33, 2⟩, ⟨33, 46⟩,
    ⟨17, 2⟩, ⟨17, 46⟩, ⟨29, 2⟩, ⟨29, 46⟩⟩

/-- The detector result on tallMatrix under the (exact Euclidean)
axisDist: module width 1, row dimension 17, column dimension 44,
sampling rectangle 352 x 68. -/
def tallResult : DetResult :=
  { sample := { width := 352
                height := 68
                srcTopLeft := ⟨17, 2⟩
                srcTopRight := ⟨29, 2⟩
                srcBottomLeft := ⟨17, 46⟩
                srcBottomRight := ⟨29, 46⟩ }
    dimension := 17
    yDimension := 44
    points := [⟨0, 68⟩, ⟨0, 0⟩, ⟨352, 0⟩, ⟨352, 68⟩] }

/-- An all-black 4 x 40 image. -/
def blackMatrix : Matrix := ⟨4, 40, fun _ _ => true⟩

/-- An all-white 2 x 2 image. -/
def blankMatrix : Matrix := ⟨2, 2, fun _ _ => false⟩

/-- The everywhere-zero distance function (theorems below hold for every
distance function; witnesses pick concrete ones). -/
def zeroDist : Point → Point → ℚ := fun _ _ => 0

/-- A query is fully inside the image. -/
def queryInBounds (m : Matrix) (q : Int × Int) : Bool :=
  decide (0 ≤ q.1) && decide (q.1 < (m.width : Int)) &&
  decide (0 ≤ q.2) && decide (q.2 < (m.height : Int))

/-- A query has a nonnegative column and a row inside the image (the
guarantee that remains for the thin-bar look-ahead tests). -/
def queryLookBounds (m : Matrix) (q : Int × Int) : Bool :=
  decide (0 ≤ q.1) && decide (0 ≤ q.2) && decide (q.2 < (m.height : Int))

/-! ## Theorems -/

set_option maxHeartbeats 1000000 in
/-- C7: intersection applied to the two non-parallel lines (0,0)-(10,10)
and (0,10)-(10,0) returns the analytic crossing point (5,5) (exactly, in
the rational model; the float computation is exact on these inputs);
applied to the parallel lines (0,0)-(10,0) and (0,5)-(10,5) it returns
the infinite sentinel (modelled none), and findCrossingPoint turns any
sentinel result into the parallel-lines failure. -/
theorem c7_intersection_crossing :
    intersection ⟨⟨0, 0⟩, ⟨10, 10⟩⟩ ⟨⟨0, 10⟩, ⟨10, 0⟩⟩ = some ⟨5, 5⟩ ∧
    intersection ⟨⟨0, 0⟩, ⟨10, 0⟩⟩ ⟨⟨0, 5⟩, ⟨10, 5⟩⟩ = none ∧
    ∀ (m : Matrix) (p1 p2 p3 p4 : Point),
      intersection ⟨p1, p2⟩ ⟨p3, p4⟩ = none →
      findCrossingPoint m p1 p2 p3 p4 = .error .parallelLines := by
  refine ⟨?_, ?_, ?_⟩
  · norm_num [intersection]
  · norm_num [intersection]
  · intro m p1 p2 p3 p4 h
    unfold findCrossingPoint
    rw [h]

set_option maxHeartbeats 1000000 in
/-- C7 witness: the general conjunct applied to the concrete parallel
lines of the claim on the all-white image. -/
theorem c7_intersection_crossing_witness :
    intersection ⟨⟨0, 0⟩, ⟨10, 0⟩⟩ ⟨⟨0, 5⟩, ⟨10, 5⟩⟩ = none ∧
    findCrossingPoint blankMatrix ⟨0, 0⟩ ⟨10, 0⟩ ⟨0, 5⟩ ⟨10, 5⟩ =
      .error .parallelLines :=
  ⟨by norm_num [intersection],
    c7_intersection_crossing.2.2 blankMatrix ⟨0, 0⟩ ⟨10, 0⟩
    ⟨0, 5⟩ ⟨10, 5⟩ (by norm_num [intersection])⟩

/-- C9: detection is a deterministic function of the immutable image: the
Detector object carries only the image, detect() never mutates it, and a
second invocation on the state left behind by the first returns the same
result (same sampling request and corner points, or the same typed
failure) and the same state. -/
theorem c9_detect_deterministic (dist : Point → Point → ℚ) (image : Matrix) :
    (detectOnState dist (detectOnState dist image).2).1 =
      (detectOnState dist image).1 ∧
    (detectOnState dist (detectOnState dist image).2).2 =
      (detectOnState dist image).2 :=
  ⟨rfl, rfl⟩

/-- C1: detect first runs findVertices (the normal-orientation four-step
search) with row step 8 (scanning the full row width, by definition of
findVertices); only when it returns the empty vector does it run
findVertices180; and when both return empty it fails with the
no-symbol-found outcome, returning no partial result. -/
theorem c1_orientation_policy (dist : Point → Point → ℚ) (m : Matrix) :
    (∀ v, toVertexSet (findVertices m 8) = some v →
      detect dist m = detectWithVertices dist m v false) ∧
    (∀ v, findVertices m 8 = [] →
      toVertexSet (findVertices180 m 8) = some v →
      detect dist m = detectWithVertices dist m v true) ∧
    (findVertices m 8 = [] → findVertices180 m 8 = [] →
      detect dist m = .error .noVerticesFound) := by
  refine ⟨fun v hv => ?_, fun v h1 hv => ?_, fun h1 h2 => ?_⟩
  · cases h : findVertices m 8 with
    | nil => rw [h] at hv; exact absurd hv (by simp [toVertexSet])
    | cons a l =>
      rw [h] at hv
      simp only [detect, h, hv]
  · cases h : findVertices180 m 8 with
    | nil => rw [h] at hv; exact absurd hv (by simp [toVertexSet])
    | cons a l =>
      rw [h] at hv
      simp only [detect, h1, h, hv]
  · simp only [detect, h1, h2]

set_option maxHeartbeats 1000000 in
/-- C1 witness: on the all-white 2 x 2 image both searches return empty
and detect fails with the no-symbol outcome. -/
theorem c1_orientation_policy_witness :
    findVertices blankMatrix 8 = [] ∧ findVertices180 blankMatrix 8 = [] ∧
    detect zeroDist blankMatrix = .error .noVerticesFound :=
  ⟨by with_unfolding_all rfl, by with_unfolding_all rfl,
    (c1_orientation_policy zeroDist blankMatrix).2.2
      (by with_unfolding_all rfl) (by with_unfolding_all rfl)⟩

/-- C2: for every image and (positive) row step, findVertices and
findVertices180 each return either the empty vector or a vector whose
slots 0-7 (outer corners and codeword-area corners) are all populated:
when any of the four dependent scans fails, the vector is cleared rather
than returned partially filled. -/
theorem c2_vertices_all_or_nothing (m : Matrix) (rowStep : Nat)
    (hstep : 0 < rowStep) :
    (findVertices m rowStep = [] ∨
      ∀ j, j < 8 → ∃ p, (findVertices m rowStep).get? j = some (some p)) ∧
    (findVertices180 m rowStep = [] ∨
      ∀ j, j < 8 → ∃ p, (findVertices180 m rowStep).get? j = some (some p)) := by
  constructor
  · simp only [findVertices]
    split
    · exact Or.inl rfl
    split
    · exact Or.inl rfl
    split
    · exact Or.inl rfl
    split
    · exact Or.inl rfl
    · refine Or.inr fun j hj => ?_
      interval_cases j <;> exact ⟨_, rfl⟩
  · simp only [findVertices180]
    split
    · exact Or.inl rfl
    split
    · exact Or.inl rfl
    split
    · exact Or.inl rfl
    split
    · exact Or.inl rfl
    · refine Or.inr fun j hj => ?_
      interval_cases j <;> exact ⟨_, rfl⟩

/-- C2 witness: the theorem applied to the all-white 2 x 2 image with row
step 1. -/
theorem c2_vertices_all_or_nothing_witness :
    0 < 1 ∧
    ((findVertices blankMatrix 1 = [] ∨
      ∀ j, j < 8 → ∃ p, (findVertices blankMatrix 1).get? j = some (some p)) ∧
    (findVertices180 blankMatrix 1 = [] ∨
      ∀ j, j < 8 →
        ∃ p, (findVertices180 blankMatrix 1).get? j = some (some p))) :=
  ⟨Nat.one_pos, c2_vertices_all_or_nothing blankMatrix 1 Nat.one_pos⟩

/-- The branch-defined per-element variance is the absolute scaled
difference. -/
theorem pmvVariance_eq_abs (u : Int) (cp : Nat × Nat) :
    pmvVariance u cp = |(cp.1 : Int) * 256 - (cp.2 : Int) * u| := by
  simp only [pmvVariance]
  split
  · rw [abs_of_pos (by omega)]
  · rw [abs_of_nonpos (by omega), neg_sub]

/-- The scoring loop returns the INT_MAX sentinel as soon as any element
exceeds the cap. -/
theorem pmvLoop_eq_intmax (u cap : Int) (t : Nat) (l : List (Nat × Nat))
    (acc : Int) (h : ∃ cp ∈ l, cap < pmvVariance u cp) :
    pmvLoop u cap t l acc = INT_MAX := by
  revert h
  induction l generalizing acc with
  | nil => intro h; simp at h
  | cons hd tl ih =>
    intro h
    simp only [pmvLoop]
    split
    · rfl
    · rename_i hv
      rcases h with ⟨cp, hmem, hcp⟩
      rcases List.mem_cons.1 hmem with rfl | hmem2
      · exact absurd hcp (by omega)
      · exact ih _ ⟨cp, hmem2, hcp⟩

/-- When every element stays within the cap, the scoring loop returns the
accumulated total variance divided by the total. -/
theorem pmvLoop_eq_sum (u cap : Int) (t : Nat) (l : List (Nat × Nat))
    (acc : Int) (h : ∀ cp ∈ l, pmvVariance u cp ≤ cap) :
    pmvLoop u cap t l acc =
      (acc + (l.map (pmvVariance u)).sum).ediv (t : Int) := by
  revert h
  induction l generalizing acc with
  | nil => intro h; simp [pmvLoop]
  | cons hd tl ih =>
    intro h
    simp only [pmvLoop]
    split
    · rename_i hv
      exact absurd (h hd (List.mem_cons_self hd tl)) (by omega)
    · rw [ih _ (fun cp hm => h cp (List.mem_cons_of_mem _ hm)),
        List.map_cons, List.sum_cons, add_assoc]

/-- C3: patternMatchVariance is the non-match sentinel (INT_MAX) when the
observed total is below the nominal pattern total; it is the sentinel as
soon as one element's scaled absolute difference exceeds the per-element
cap ((1 << 8) * 0.8, truncated to 204, rescaled by the 256-scaled module
width); otherwise it is totalVariance / total; and the match test of
findGuardPattern (its scanning step fgpStep) accepts a full window
exactly when that value is below the global cap ((1 << 8) * 0.42,
truncated to 107). -/
theorem c3_variance_scoring :
    (MAX_INDIVIDUAL_VARIANCE = ratTrunc ((256 : ℚ) * (8 / 10)) ∧
      MAX_AVG_VARIANCE = ratTrunc ((256 : ℚ) * (42 / 100))) ∧
    (∀ (counters pattern : List Nat) (mIV : Int),
      pmvTotal counters pattern < pmvNominal counters pattern →
      patternMatchVariance counters pattern mIV = INT_MAX) ∧
    (∀ (counters pattern : List Nat) (mIV : Int),
      (∃ cp ∈ counters.zip pattern,
        pmvCap counters pattern mIV <
          |(cp.1 : Int) * 256 - (cp.2 : Int) * pmvUnitBarWidth counters pattern|) →
      patternMatchVariance counters pattern mIV = INT_MAX) ∧
    (∀ (counters pattern : List Nat) (mIV : Int),
      ¬ pmvTotal counters pattern < pmvNominal counters pattern →
      (∀ cp ∈ counters.zip pattern,
        |(cp.1 : Int) * 256 - (cp.2 : Int) * pmvUnitBarWidth counters pattern| ≤
          pmvCap counters pattern mIV) →
      patternMatchVariance counters pattern mIV =
        (((counters.zip pattern).map
          (pmvVariance (pmvUnitBarWidth counters pattern))).sum).ediv
          (pmvTotal counters pattern : Int)) ∧
    (∀ (pattern : List Nat) (s : FgpState) (x : Nat) (pixel : Bool),
      (∃ loc, fgpStep pattern s x pixel = Sum.inr loc) ↔
      (xor pixel s.isWhite = false ∧ s.counterPosition = pattern.length - 1 ∧
        patternMatchVariance s.counters pattern MAX_INDIVIDUAL_VARIANCE <
          MAX_AVG_VARIANCE)) := by
  refine ⟨⟨?_, ?_⟩, ?_, ?_, ?_, ?_⟩
  · with_unfolding_all rfl
  · with_unfolding_all rfl
  · intro counters pattern mIV h
    unfold patternMatchVariance
    rw [if_pos h]
  · intro counters pattern mIV h
    rcases h with ⟨cp, hm, hv⟩
    unfold patternMatchVariance
    split
    · rfl
    · exact pmvLoop_eq_intmax _ _ _ _ _
        ⟨cp, hm, by rw [pmvVariance_eq_abs]; exact hv⟩
  · intro counters pattern mIV h1 h2
    unfold patternMatchVariance
    rw [if_neg h1, pmvLoop_eq_sum _ _ _ _ _
      (fun cp hm => by rw [pmvVariance_eq_abs]; exact h2 cp hm), zero_add]
  · intro pattern s x pixel
    constructor
    · rintro ⟨loc, h⟩
      unfold fgpStep at h
      split_ifs at h with h1 h2 h3
      · refine ⟨by simpa using h1, h2, h3⟩
    · rintro ⟨h1, h2, h3⟩
      refine ⟨(s.patternStart, x), ?_⟩
      unfold fgpStep
      rw [if_neg (by simp [h1]), if_pos h2, if_pos h3]

/-- C3 witness: a too-short counter vector is rejected with the sentinel,
and an exact start-pattern window scores 0 and is below every cap. -/
theorem c3_variance_scoring_witness :
    (pmvTotal [1, 1] [8, 3] < pmvNominal [1, 1] [8, 3] ∧
      patternMatchVariance [1, 1] [8, 3] MAX_INDIVIDUAL_VARIANCE = INT_MAX) ∧
    (¬ pmvTotal [8, 1, 1, 1, 1, 1, 1, 3] START_PATTERN <
        pmvNominal [8, 1, 1, 1, 1, 1, 1, 3] START_PATTERN ∧
      patternMatchVariance [8, 1, 1, 1, 1, 1, 1, 3] START_PATTERN
          MAX_INDIVIDUAL_VARIANCE =
        ((([8, 1, 1, 1, 1, 1, 1, 3].zip START_PATTERN).map
          (pmvVariance
            (pmvUnitBarWidth [8, 1, 1, 1, 1, 1, 1, 3] START_PATTERN))).sum).ediv
          (pmvTotal [8, 1, 1, 1, 1, 1, 1, 3] START_PATTERN : Int)) :=
  ⟨⟨by decide, c3_variance_scoring.2.1 [1, 1] [8, 3] MAX_INDIVIDUAL_VARIANCE
      (by decide)⟩,
    ⟨by decide, c3_variance_scoring.2.2.2.1 [8, 1, 1, 1, 1, 1, 1, 3]
      START_PATTERN MAX_INDIVIDUAL_VARIANCE (by decide) (by decide)⟩⟩

/-- Multiplying every element of a list by k multiplies its sum by k. -/
theorem sum_map_mul (k : Nat) (l : List Nat) :
    (l.map (fun p => k * p)).sum = k * l.sum := by
  induction l with
  | nil => simp
  | cons a t ih => simp [ih, Nat.mul_add]

/-- Zipping a mapped list with the original pairs the images with the
originals. -/
theorem zip_map_self (k : Nat) (l : List Nat) :
    (l.map (fun p => k * p)).zip l = l.map (fun p => (k * p, p)) := by
  induction l with
  | nil => rfl
  | cons a t ih => simp [ih]

/-- C8 counterexample: the claim fails in both halves.  The run-length
sequence 136,27,17,22,17,17,17,68 scores 36 < 107 against the start
pattern (a match), but doubling every run is rejected with the sentinel
(the boundary element variance 7704 exceeds the rescaled cap 7703), so
uniform scaling does not preserve matching.  And the matching sequence
800,100,...,300 (score 0, module width 100) with its first run increased
by 90 pixels, more than the per-element cap (0.8 module = 80 pixels;
scaled, 90 * 256 = 23040 > 20400), still scores 13 < 107: a match, not a
rejection. -/
theorem c8_scale_perturbation_cex :
    patternMatchVariance [136, 27, 17, 22, 17, 17, 17, 68] START_PATTERN
      MAX_INDIVIDUAL_VARIANCE = 36 ∧
    (36 : Int) < MAX_AVG_VARIANCE ∧
    [272, 54, 34, 44, 34, 34, 34, 136] =
      [136, 27, 17, 22, 17, 17, 17, 68].map (fun p => 2 * p) ∧
    patternMatchVariance [272, 54, 34, 44, 34, 34, 34, 136] START_PATTERN
      MAX_INDIVIDUAL_VARIANCE = INT_MAX ∧
    ¬ patternMatchVariance [272, 54, 34, 44, 34, 34, 34, 136] START_PATTERN
      MAX_INDIVIDUAL_VARIANCE < MAX_AVG_VARIANCE ∧
    patternMatchVariance [800, 100, 100, 100, 100, 100, 100, 300]
      START_PATTERN MAX_INDIVIDUAL_VARIANCE = 0 ∧
    (90 : Int) * 256 >
      pmvCap [800, 100, 100, 100, 100, 100, 100, 300] START_PATTERN
        MAX_INDIVIDUAL_VARIANCE ∧
    patternMatchVariance [890, 100, 100, 100, 100, 100, 100, 300]
      START_PATTERN MAX_INDIVIDUAL_VARIANCE = 13 ∧
    (13 : Int) < MAX_AVG_VARIANCE := by
  decide

/-- C8 amended: an exact positive integer multiple of the pattern itself
matches at every scale with variance score 0 (uniform scaling of a
general matching sequence can be rejected because of integer rounding at
the per-element cap, and perturbing one run by more than the cap can
still match); what forces rejection is exactly the recomputed
per-element test: whenever some element's variance exceeds the cap
recomputed from the perturbed counters, patternMatchVariance returns the
INT_MAX sentinel. -/
theorem c8_scale_perturbation :
    (∀ (pattern : List Nat) (k : Nat), 1 ≤ k →
      patternMatchVariance (pattern.map (fun p => k * p)) pattern
        MAX_INDIVIDUAL_VARIANCE = 0) ∧
    (∀ (counters pattern : List Nat) (mIV : Int),
      (∃ cp ∈ counters.zip pattern,
        pmvCap counters pattern mIV <
          pmvVariance (pmvUnitBarWidth counters pattern) cp) →
      patternMatchVariance counters pattern mIV = INT_MAX) := by
  constructor
  · intro pattern k hk
    have hzip := zip_map_self k pattern
    have htotal : pmvTotal (pattern.map (fun p => k * p)) pattern =
        k * pattern.sum := by
      unfold pmvTotal
      rw [hzip, List.map_map]
      have : (fun q : Nat × Nat => q.1) ∘ (fun p => (k * p, p)) =
          fun p => k * p := rfl
      rw [this, sum_map_mul]
    have hnominal : pmvNominal (pattern.map (fun p => k * p)) pattern =
        pattern.sum := by
      unfold pmvNominal
      rw [hzip, List.map_map]
      have : (fun q : Nat × Nat => q.2) ∘ (fun p => (k * p, p)) =
          fun p => p := rfl
      rw [this, List.map_id']
    have hvar : ∀ cp ∈ (pattern.map (fun p => k * p)).zip pattern,
        pmvVariance
          (pmvUnitBarWidth (pattern.map (fun p => k * p)) pattern) cp = 0 := by
      intro cp hcp
      rw [hzip] at hcp
      rcases List.mem_map.1 hcp with ⟨p, hp, rfl⟩
      rw [pmvVariance_eq_abs]
      rcases Nat.eq_zero_or_pos pattern.sum with hP | hP
      · have hp0 : p = 0 := (List.sum_eq_zero_iff.1 hP) p hp
        subst hp0
        simp
      · have hubw : pmvUnitBarWidth (pattern.map (fun p => k * p)) pattern =
            ((k * 256 : Nat) : Int) := by
          unfold pmvUnitBarWidth
          rw [htotal, hnominal]
          congr 1
          rw [show k * pattern.sum * 256 = k * 256 * pattern.sum by ring]
          exact Nat.mul_div_cancel (k * 256) hP
        rw [hubw]
        push_cast
        rw [show (p : Int) * ((k : Int) * 256) = (k : Int) * (p : Int) * 256 by
          ring, sub_self, abs_zero]
    have hle : pmvNominal (pattern.map (fun p => k * p)) pattern ≤
        pmvTotal (pattern.map (fun p => k * p)) pattern := by
      rw [htotal, hnominal]
      calc pattern.sum = 1 * pattern.sum := (Nat.one_mul _).symm
        _ ≤ k * pattern.sum := Nat.mul_le_mul_right _ hk
    have hcap : 0 ≤ pmvCap (pattern.map (fun p => k * p)) pattern
        MAX_INDIVIDUAL_VARIANCE := by
      apply Int.fdiv_nonneg _ (by norm_num)
      apply mul_nonneg (by norm_num [MAX_INDIVIDUAL_VARIANCE])
      unfold pmvUnitBarWidth
      exact Int.natCast_nonneg _
    unfold patternMatchVariance
    rw [if_neg (Nat.not_lt.2 hle),
      pmvLoop_eq_sum _ _ _ _ _ (fun cp hm => (hvar cp hm).le.trans hcap)]
    have hsum : (((pattern.map (fun p => k * p)).zip pattern).map
        (pmvVariance
          (pmvUnitBarWidth (pattern.map (fun p => k * p)) pattern))).sum = 0 := by
      apply List.sum_eq_zero
      intro x hx
      rcases List.mem_map.1 hx with ⟨cp, hcp, rfl⟩
      exact hvar cp hcp
    rw [hsum]
    exact Int.zero_ediv _
  · intro counters pattern mIV h
    rcases h with ⟨cp, hm, hv⟩
    unfold patternMatchVariance
    split
    · rfl
    · exact pmvLoop_eq_intmax _ _ _ _ _ ⟨cp, hm, hv⟩

/-- C8 witness: doubling the start pattern itself still matches with
variance score 0, and a sequence with a grossly oversized first run is
rejected with the sentinel by the per-element test. -/
theorem c8_scale_perturbation_witness :
    (1 ≤ 2 ∧
    patternMatchVariance (START_PATTERN.map (fun p => 2 * p)) START_PATTERN
      MAX_INDIVIDUAL_VARIANCE = 0) ∧
    ((∃ cp ∈ [100, 1, 1, 1, 1, 1, 1, 3].zip START_PATTERN,
      pmvCap [100, 1, 1, 1, 1, 1, 1, 3] START_PATTERN
          MAX_INDIVIDUAL_VARIANCE <
        pmvVariance
          (pmvUnitBarWidth [100, 1, 1, 1, 1, 1, 1, 3] START_PATTERN) cp) ∧
    patternMatchVariance [100, 1, 1, 1, 1, 1, 1, 3] START_PATTERN
      MAX_INDIVIDUAL_VARIANCE = INT_MAX) :=
  ⟨⟨by decide, c8_scale_perturbation.1 START_PATTERN 2 (by decide)⟩,
    ⟨by decide, c8_scale_perturbation.2 [100, 1, 1, 1, 1, 1, 1, 3]
      START_PATTERN MAX_INDIVIDUAL_VARIANCE (by decide)⟩⟩

/-- Anatomy of a successful detectWithVertices run: the corrected
vertices exist, the module width and dimension checks passed, and the
result fields are the computed dimension, y dimension and sampling
request. -/
theorem detectWithVertices_ok_spec (dist : Point → Point → ℚ) (m : Matrix)
    (v : VertexSet) (ud : Bool) (r : DetResult)
    (h : detectWithVertices dist m v ud = .ok r) :
    ∃ vertsC, correctVertices m v ud = .ok vertsC ∧
      ¬ computeModuleWidth dist vertsC.base < 1 ∧
      r.dimension = computeDimension dist vertsC.v12 vertsC.v14 vertsC.v13
        vertsC.v15 (computeModuleWidth dist vertsC.base) ∧
      ¬ r.dimension < 1 ∧
      r.yDimension = max (computeYDimension dist vertsC.v12 vertsC.v14
        vertsC.v13 vertsC.v15 (computeModuleWidth dist vertsC.base))
        r.dimension ∧
      r.sample = sampleLines vertsC r.dimension r.yDimension := by
  cases hcv : correctVertices m v ud with
  | error e =>
    unfold detectWithVertices at h
    rw [hcv] at h
    exact absurd h (by simp)
  | ok vertsC =>
    unfold detectWithVertices at h
    rw [hcv] at h
    dsimp only [] at h
    by_cases h1 : computeModuleWidth dist vertsC.base < 1
    · rw [if_pos h1] at h
      exact absurd h (by simp)
    · rw [if_neg h1] at h
      by_cases h2 : computeDimension dist vertsC.v12 vertsC.v14 vertsC.v13
          vertsC.v15 (computeModuleWidth dist vertsC.base) < 1
      · rw [if_pos h2] at h
        exact absurd h (by simp)
      · rw [if_neg h2] at h
        injection h with h3
        subst h3
        exact ⟨vertsC, rfl, h1, rfl, h2, rfl, rfl⟩

/-- A successful detect comes from detectWithVertices on a located vertex
set in one of the two orientations. -/
theorem detect_ok_exists (dist : Point → Point → ℚ) (m : Matrix)
    (r : DetResult) (h : detect dist m = .ok r) :
    ∃ v ud, detectWithVertices dist m v ud = .ok r := by
  simp only [detect] at h
  split at h
  · split at h
    · exact absurd h (by simp)
    · split at h
      · exact ⟨_, true, h⟩
      · exact absurd h (by simp)
  · split at h
    · exact ⟨_, false, h⟩
    · exact absurd h (by simp)

set_option maxHeartbeats 4000000 in
/-- C4 counterexample: on the tall synthetic barcode image, with the
true Euclidean distance (axisDist is exact on every axis-aligned pair
the trace evaluates), detection succeeds with row dimension 17 and
column dimension 44, and the canonical rectangle passed to the
projective transform is 352 x 68: its width is the column dimension
times 8 (not the row dimension times 8 = 136) and its height is the row
dimension times 4 (not the column dimension times 4 = 176). -/
theorem c4_sample_rectangle_cex :
    detect axisDist tallMatrix = .ok tallResult ∧
    tallResult.dimension = 17 ∧ tallResult.yDimension = 44 ∧
    tallResult.sample.width ≠ tallResult.dimension * 8 ∧
    tallResult.sample.height ≠ tallResult.yDimension * 4 := by
  refine ⟨by with_unfolding_all rfl, rfl, rfl, by decide, by decide⟩

/-- C4 amended: for every successful detection, the canonical rectangle
passed to the projective transform has width yDimension * 8 (the column
dimension, after being raised to at least the row dimension) and height
dimension * 4 (the row dimension) — the two parameters are interchanged
at the sampleLines call site relative to its parameter names — and the
canonical corners are mapped corner-to-corner onto the corrected
codeword-area corners: top-left to vertex 12, top-right to vertex 14,
bottom-left to vertex 13, bottom-right to vertex 15. -/
theorem c4_sample_rectangle (dist : Point → Point → ℚ) (m : Matrix)
    (v : VertexSet) (ud : Bool) (vertsC : CorrectedVertices) (r : DetResult)
    (hcv : correctVertices m v ud = .ok vertsC)
    (hr : detectWithVertices dist m v ud = .ok r) :
    r.sample.width = r.yDimension * 8 ∧
    r.sample.height = r.dimension * 4 ∧
    r.sample.srcTopLeft = vertsC.v12 ∧
    r.sample.srcTopRight = vertsC.v14 ∧
    r.sample.srcBottomLeft = vertsC.v13 ∧
    r.sample.srcBottomRight = vertsC.v15 := by
  obtain ⟨vertsC2, hcv2, -, -, -, -, hs⟩ :=
    detectWithVertices_ok_spec dist m v ud r hr
  rw [hcv] at hcv2
  injection hcv2 with he
  subst he
  rw [hs]
  exact ⟨rfl, rfl, rfl, rfl, rfl, rfl⟩

set_option maxHeartbeats 4000000 in
/-- C4 witness: the amended statement applied to the successful
Euclidean-distance detection on the tall synthetic barcode image. -/
theorem c4_sample_rectangle_witness :
    correctVertices tallMatrix tallVertices false = .ok tallCorrected ∧
    detectWithVertices axisDist tallMatrix tallVertices false =
      .ok tallResult ∧
    (tallResult.sample.width = tallResult.yDimension * 8 ∧
      tallResult.sample.height = tallResult.dimension * 4 ∧
      tallResult.sample.srcTopLeft = tallCorrected.v12 ∧
      tallResult.sample.srcTopRight = tallCorrected.v14 ∧
      tallResult.sample.srcBottomLeft = tallCorrected.v13 ∧
      tallResult.sample.srcBottomRight = tallCorrected.v15) := by
  have hcv : correctVertices tallMatrix tallVertices false =
      .ok tallCorrected := by with_unfolding_all rfl
  have hdw : detectWithVertices axisDist tallMatrix tallVertices false =
      .ok tallResult := by with_unfolding_all rfl
  exact ⟨hcv, hdw, c4_sample_rectangle axisDist tallMatrix
    tallVertices false tallCorrected tallResult hcv hdw⟩

/-- findCrossingPoint fails only with the parallel-lines or the
out-of-region error. -/
theorem findCrossingPoint_error (m : Matrix) (p1 p2 p3 p4 : Point)
    (e : DetError) (h : findCrossingPoint m p1 p2 p3 p4 = .error e) :
    e = .parallelLines ∨ e = .crossingOutOfBounds := by
  cases hi : intersection ⟨p1, p2⟩ ⟨p3, p4⟩ with
  | none =>
    unfold findCrossingPoint at h
    rw [hi] at h
    injection h with h1
    exact Or.inl h1.symm
  | some pt =>
    unfold findCrossingPoint at h
    rw [hi] at h
    dsimp only [] at h
    split at h
    · injection h with h1
      exact Or.inr h1.symm
    · exact absurd h (by simp)

set_option maxHeartbeats 4000000 in
/-- C5 counterexample: on the synthetic barcode image the left outer
corner (vertex 0) and its paired inner corner (vertex 4) lie on the same
row, so their row coordinates differ by 0 < 20 pixels, yet
correctVertices does not fail: the 20-pixel check compares the top and
bottom corners of a side, not an outer corner with its paired inner
corner. -/
theorem c5_guard_separation_cex :
    |exampleVertices.v0.y - exampleVertices.v4.y| < 20 ∧
    |exampleVertices.v2.y - exampleVertices.v6.y| < 20 ∧
    correctVertices exampleMatrix exampleVertices false =
      .ok exampleCorrected := by
  refine ⟨?_, ?_, by with_unfolding_all rfl⟩
  · norm_num [exampleVertices]
  · norm_num [exampleVertices]

/-- C5 amended: correctVertices fails immediately with the
insufficient-guard-pattern-separation error if and only if, on the left
or the right side, the top inner (codeword-area) corner and the bottom
inner corner have row coordinates differing by less than 20 pixels
(vertices 4/5 on the left, 6/7 on the right); otherwise it proceeds to
wide-bar tracing and line intersection, whose only failures are the
parallel-lines and crossing-out-of-bounds errors. -/
theorem c5_guard_separation (m : Matrix) (v : VertexSet) (ud : Bool) :
    correctVertices m v ud = .error .insufficientGuardSeparation ↔
      (|v.v4.y - v.v5.y| < 20 ∨ |v.v6.y - v.v7.y| < 20) := by
  constructor
  · intro h
    by_contra hc
    unfold correctVertices at h
    rw [if_neg hc] at h
    dsimp only [] at h
    split at h
    · rename_i e heq
      injection h with h1
      subst h1
      rcases findCrossingPoint_error _ _ _ _ _ _ heq with h2 | h2 <;>
        exact absurd h2 (by decide)
    · split at h
      · rename_i e heq
        injection h with h1
        subst h1
        rcases findCrossingPoint_error _ _ _ _ _ _ heq with h2 | h2 <;>
          exact absurd h2 (by decide)
      · split at h
        · rename_i e heq
          injection h with h1
          subst h1
          rcases findCrossingPoint_error _ _ _ _ _ _ heq with h2 | h2 <;>
            exact absurd h2 (by decide)
        · split at h
          · rename_i e heq
            injection h with h1
            subst h1
            rcases findCrossingPoint_error _ _ _ _ _ _ heq with h2 | h2 <;>
              exact absurd h2 (by decide)
          · exact absurd h (by simp)
  · intro hcond
    unfold correctVertices
    rw [if_pos hcond]

/-- C6: computeDimension divides the top and bottom codeword-area edge
lengths by the module width, rounds each to nearest, averages by an
arithmetic shift and snaps with ((sum >> 1) + 8) / 17 * 17, so it is
always a multiple of 17; every successful detection has a dimension that
is a positive multiple of 17; and whenever the pipeline reaches the
dimension computation (vertices corrected, module width accepted) and
the snapped value is below 1, detect fails with the bad-dimension
error. -/
theorem c6_dimension_snapping :
    (∀ (dist : Point → Point → ℚ) (tl tr bl br : Point) (mw : ℚ),
      computeDimension dist tl tr bl br mw =
        (((cppRound (dist tl tr / mw) + cppRound (dist bl br / mw)).fdiv 2
          + 8).tdiv 17) * 17 ∧
      (17 : Int) ∣ computeDimension dist tl tr bl br mw) ∧
    (∀ (dist : Point → Point → ℚ) (m : Matrix) (r : DetResult),
      detect dist m = .ok r → (17 : Int) ∣ r.dimension ∧ 1 ≤ r.dimension) ∧
    (∀ (dist : Point → Point → ℚ) (m : Matrix) (v : VertexSet) (ud : Bool)
      (vertsC : CorrectedVertices),
      correctVertices m v ud = .ok vertsC →
      ¬ computeModuleWidth dist vertsC.base < 1 →
      computeDimension dist vertsC.v12 vertsC.v14 vertsC.v13 vertsC.v15
        (computeModuleWidth dist vertsC.base) < 1 →
      detectWithVertices dist m v ud = .error .badDimension) := by
  refine ⟨fun dist tl tr bl br mw => ⟨rfl, dvd_mul_left 17 _⟩,
    fun dist m r h => ?_, fun dist m v ud vertsC hcv hmw hdim => ?_⟩
  · obtain ⟨v, ud, hdw⟩ := detect_ok_exists dist m r h
    obtain ⟨vertsC, -, -, hdimeq, hpos, -, -⟩ :=
      detectWithVertices_ok_spec dist m v ud r hdw
    constructor
    · rw [hdimeq]
      exact dvd_mul_left 17 _
    · omega
  · unfold detectWithVertices
    rw [hcv]
    dsimp only []
    rw [if_neg hmw, if_pos hdim]

set_option maxHeartbeats 4000000 in
/-- C6 witness: on the synthetic barcode image with the horizontal
(exact Euclidean) distance the module width is 1 and the codeword area
is only 3 modules wide, so the snapped dimension is 0 and detection
fails with the bad-dimension error; and the successful
Euclidean-distance detection on the tall image has dimension 17, a
positive multiple of 17. -/
theorem c6_dimension_snapping_witness :
    (correctVertices exampleMatrix exampleVertices false =
      .ok exampleCorrected ∧
    ¬ computeModuleWidth horizontalDist exampleCorrected.base < 1 ∧
    computeDimension horizontalDist exampleCorrected.v12
      exampleCorrected.v14 exampleCorrected.v13 exampleCorrected.v15
      (computeModuleWidth horizontalDist exampleCorrected.base) < 1 ∧
    detectWithVertices horizontalDist exampleMatrix exampleVertices false =
      .error .badDimension) ∧
    (detect axisDist tallMatrix = .ok tallResult ∧
    (17 : Int) ∣ tallResult.dimension ∧ 1 ≤ tallResult.dimension) := by
  have hcv : correctVertices exampleMatrix exampleVertices false =
      .ok exampleCorrected := by with_unfolding_all rfl
  have hmw : ¬ computeModuleWidth horizontalDist exampleCorrected.base < 1 :=
    of_decide_eq_true (by with_unfolding_all rfl)
  have hdim : computeDimension horizontalDist exampleCorrected.v12
      exampleCorrected.v14 exampleCorrected.v13 exampleCorrected.v15
      (computeModuleWidth horizontalDist exampleCorrected.base) < 1 :=
    of_decide_eq_true (by with_unfolding_all rfl)
  have hdet : detect axisDist tallMatrix = .ok tallResult := by
    with_unfolding_all rfl
  exact ⟨⟨hcv, hmw, hdim,
    c6_dimension_snapping.2.2 horizontalDist exampleMatrix exampleVertices
      false exampleCorrected hcv hmw hdim⟩,
    ⟨hdet, c6_dimension_snapping.2.1 axisDist tallMatrix tallResult
      hdet⟩⟩

/-- queryInBounds unfolded to its four inequalities. -/
theorem queryInBounds_iff (m : Matrix) (q : Int × Int) :
    queryInBounds m q = true ↔
      0 ≤ q.1 ∧ q.1 < (m.width : Int) ∧ 0 ≤ q.2 ∧ q.2 < (m.height : Int) := by
  simp [queryInBounds, and_assoc]

/-- queryLookBounds unfolded to its three inequalities. -/
theorem queryLookBounds_iff (m : Matrix) (q : Int × Int) :
    queryLookBounds m q = true ↔
      0 ≤ q.1 ∧ 0 ≤ q.2 ∧ q.2 < (m.height : Int) := by
  simp [queryLookBounds, and_assoc]

/-- Truncation of a nonnegative rational is its floor. -/
theorem ratTrunc_of_nonneg {q : ℚ} (h : 0 ≤ q) : ratTrunc q = ⌊q⌋ :=
  if_pos h

/-- The source round on a nonnegative argument is the floor of q + 1/2. -/
theorem cppRound_eq_floor {q : ℚ} (h : 0 ≤ q) : cppRound q = ⌊q + 1 / 2⌋ := by
  unfold cppRound
  exact ratTrunc_of_nonneg (by linarith)

/-- The source round of a nonnegative value is nonnegative. -/
theorem cppRound_nonneg {q : ℚ} (h : 0 ≤ q) : 0 ≤ cppRound q := by
  rw [cppRound_eq_floor h]
  exact Int.floor_nonneg.2 (by linarith)

/-- The source round of a nonnegative value below an integer stays below
that integer. -/
theorem cppRound_le {q : ℚ} {B : Int} (h0 : 0 ≤ q) (h : q ≤ (B : ℚ)) :
    cppRound q ≤ B := by
  rw [cppRound_eq_floor h0]
  have h2 : (⌊q + 1 / 2⌋ : Int) ≤ ⌊(B : ℚ) + 1 / 2⌋ :=
    Int.floor_le_floor (by linarith)
  have h3 : (⌊(B : ℚ) + 1 / 2⌋ : Int) = B := by
    rw [add_comm, Int.floor_add_int]
    norm_num
  omega

/-- Monotonicity of the source round on nonnegative values. -/
theorem cppRound_mono {a b : ℚ} (h0 : 0 ≤ a) (h : a ≤ b) :
    cppRound a ≤ cppRound b := by
  rw [cppRound_eq_floor h0, cppRound_eq_floor (le_trans h0 h)]
  exact Int.floor_le_floor (by linarith)

/-- The interpolation between the two corner columns stays between
them. -/
theorem wbInterp_bounds (vs ve : Point) (o lp : Int) (h0 : 0 ≤ o)
    (h1 : o ≤ lp) (h2 : 0 < lp) :
    min vs.x ve.x ≤ wbInterp vs ve o lp ∧
      wbInterp vs ve o lp ≤ max vs.x ve.x := by
  unfold wbInterp
  dsimp only []
  have hlp : (0 : ℚ) < (lp : ℚ) := by exact_mod_cast h2
  have ht0 : (0 : ℚ) ≤ (o : ℚ) / (lp : ℚ) :=
    div_nonneg (by exact_mod_cast h0) hlp.le
  have ht1 : (o : ℚ) / (lp : ℚ) ≤ 1 :=
    (div_le_one hlp).2 (by exact_mod_cast h1)
  rw [mul_div_assoc]
  constructor
  · rcases le_total vs.x ve.x with hc | hc
    · rw [min_eq_left hc]; nlinarith
    · rw [min_eq_right hc]; nlinarith
  · rcases le_total vs.x ve.x with hc | hc
    · rw [max_eq_right hc]; nlinarith
    · rw [max_eq_left hc]; nlinarith

/-- The thin-bar search never moves the column backwards. -/
theorem nextBarSearch_ge (m : Matrix) (y : Int) :
    ∀ (fuel : Nat) (nbx : Int), nbx ≤ (nextBarSearch m y fuel nbx).1 := by
  intro fuel
  induction fuel with
  | zero => intro nbx; exact le_refl _
  | succ n ih =>
    intro nbx
    unfold nextBarSearch
    by_cases hw : nbx < (m.width : Int)
    · rw [if_pos hw]
      dsimp only []
      split
      · exact le_refl _
      · exact le_trans (by omega) (ih (nbx + 1))
    · rw [if_neg hw]

/-- Every pixel test of the thin-bar search is inside the image, provided
the row is inside and the search starts at column at least 1. -/
theorem nextBarSearch_queries (m : Matrix) (y : Int) (hy0 : 0 ≤ y)
    (hyh : y < (m.height : Int)) :
    ∀ (fuel : Nat) (nbx : Int), 1 ≤ nbx →
      ∀ q ∈ (nextBarSearch m y fuel nbx).2, queryInBounds m q = true := by
  intro fuel
  induction fuel with
  | zero => intro nbx hn q hq; simp [nextBarSearch] at hq
  | succ n ih =>
    intro nbx hn q hq
    unfold nextBarSearch at hq
    by_cases hw : nbx < (m.width : Int)
    · rw [if_pos hw] at hq
      dsimp only [] at hq
      have hhead : ∀ p ∈ ((nbx - 1, y) ::
          (if mgetI m (nbx - 1) y then [] else [(nbx, y)]) : List (Int × Int)),
          queryInBounds m p = true := by
        intro p hp
        rcases List.mem_cons.1 hp with rfl | hp2
        · rw [queryInBounds_iff]
          refine ⟨by omega, by omega, hy0, hyh⟩
        · by_cases hpb : mgetI m (nbx - 1) y
          · rw [if_pos hpb] at hp2
            simp at hp2
          · rw [if_neg hpb] at hp2
            simp at hp2
            subst hp2
            rw [queryInBounds_iff]
            exact ⟨by omega, by omega, hy0, hyh⟩
      split at hq
      · exact hhead q hq
      · rcases List.mem_append.1 hq with hq2 | hq2
        · exact hhead q hq2
        · exact ih (nbx + 1) (by omega) q hq2
    · rw [if_neg hw] at hq
      simp at hq

/-- Invariant of the wide-bar tracing loop: starting inside the image
with a nonnegative look-ahead offset, every walking/sideways pixel test
stays inside the image, and every look-ahead pixel test has a
nonnegative column and an in-image row. -/
theorem wideBarLoop_queries (m : Matrix) (nbx rowStep yStart : Int)
    (hnbx : 0 ≤ nbx) :
    ∀ (fuel : Nat) (x y : Int), 0 ≤ x → x < (m.width : Int) →
      0 ≤ y → y < (m.height : Int) →
      (∀ q ∈ (wideBarLoop m nbx rowStep yStart fuel x y).mainQueries,
        queryInBounds m q = true) ∧
      (∀ q ∈ (wideBarLoop m nbx rowStep yStart fuel x y).lookQueries,
        queryLookBounds m q = true) := by
  intro fuel
  induction fuel with
  | zero =>
    intro x y _ _ _ _
    constructor <;> intro q hq <;> simp [wideBarLoop] at hq
  | succ n ih =>
    intro x y hx0 hxw hy0 hyh
    have hself : queryInBounds m (x, y) = true := by
      rw [queryInBounds_iff]
      exact ⟨hx0, hxw, hy0, hyh⟩
    have hlook : ∀ p ∈ ((x + nbx, y) ::
        (if mgetI m (x + nbx) y then [] else [(x + nbx + 1, y)]) :
        List (Int × Int)), queryLookBounds m p = true := by
      intro p hp
      rcases List.mem_cons.1 hp with rfl | hp2
      · rw [queryLookBounds_iff]
        exact ⟨by omega, hy0, hyh⟩
      · by_cases hl : mgetI m (x + nbx) y
        · rw [if_pos hl] at hp2
          simp at hp2
        · rw [if_neg hl] at hp2
          simp at hp2
          subst hp2
          rw [queryLookBounds_iff]
          exact ⟨by omega, hy0, hyh⟩
    unfold wideBarLoop
    by_cases hb : mgetI m x y
    · rw [if_pos hb]
      dsimp only []
      by_cases hy2 : y + rowStep ≤ 0 ∨ (m.height : Int) - 1 ≤ y + rowStep
      · rw [if_pos hy2]
        constructor
        · intro q hq
          simp at hq
          subst hq
          exact hself
        · exact hlook
      · rw [if_neg hy2]
        by_cases hend : (!mgetI m (x + nbx) y && !mgetI m (x + nbx + 1) y) = true
        · rw [if_pos hend]
          constructor
          · intro q hq
            simp at hq
            subst hq
            exact hself
          · exact hlook
        · rw [if_neg hend]
          dsimp only []
          push_neg at hy2
          obtain ⟨hrec1, hrec2⟩ :=
            ih x (y + rowStep) hx0 hxw (by omega) (by omega)
          constructor
          · intro q hq
            rcases List.mem_cons.1 hq with rfl | hq2
            · exact hself
            · exact hrec1 q hq2
          · intro q hq
            rcases List.mem_append.1 hq with hq2 | hq2
            · exact hlook q hq2
            · exact hrec2 q hq2
    · rw [if_neg hb]
      dsimp only []
      have hqL : ∀ p ∈ (if 0 < x then [(x - 1, y)] else [] : List (Int × Int)),
          queryInBounds m p = true := by
        intro p hp
        by_cases hx : 0 < x
        · rw [if_pos hx] at hp
          simp at hp
          subst hp
          rw [queryInBounds_iff]
          exact ⟨by omega, by omega, hy0, hyh⟩
        · rw [if_neg hx] at hp
          simp at hp
      by_cases hleft : 0 < x ∧ mgetI m (x - 1) y
      · rw [if_pos hleft]
        dsimp only []
        obtain ⟨hrec1, hrec2⟩ := ih (x - 1) y (by omega) (by omega) hy0 hyh
        constructor
        · intro q hq
          rcases List.mem_cons.1 hq with rfl | hq2
          · exact hself
          · rcases List.mem_append.1 hq2 with hq3 | hq3
            · exact hqL q hq3
            · exact hrec1 q hq3
        · exact hrec2
      · rw [if_neg hleft]
        have hqR : ∀ p ∈ (if x < (m.width : Int) - 1 then [(x + 1, y)]
            else [] : List (Int × Int)), queryInBounds m p = true := by
          intro p hp
          by_cases hx : x < (m.width : Int) - 1
          · rw [if_pos hx] at hp
            simp at hp
            subst hp
            rw [queryInBounds_iff]
            exact ⟨by omega, by omega, hy0, hyh⟩
          · rw [if_neg hx] at hp
            simp at hp
        by_cases hright : x < (m.width : Int) - 1 ∧ mgetI m (x + 1) y
        · rw [if_pos hright]
          dsimp only []
          obtain ⟨hrec1, hrec2⟩ := ih (x + 1) y (by omega) (by omega) hy0 hyh
          constructor
          · intro q hq
            rcases List.mem_cons.1 hq with rfl | hq2
            · exact hself
            · rcases List.mem_append.1 hq2 with hq3 | hq3
              · rcases List.mem_append.1 hq3 with hq4 | hq4
                · exact hqL q hq4
                · exact hqR q hq4
              · exact hrec1 q hq3
          · exact hrec2
        · rw [if_neg hright]
          constructor
          · intro q hq
            rcases List.mem_cons.1 hq with rfl | hq2
            · exact hself
            · rcases List.mem_append.1 hq2 with hq3 | hq3
              · exact hqL q hq3
              · exact hqR q hq3
          · intro q hq
            simp at hq

/-- C10 counterexample: on an all-black 4 x 40 image with the located
corners (0,5) and (3,5) inside the image, the thin-bar search finds no
white-to-black edge, so nextBarX ends up at width - x, and the very
first look-ahead tests read columns 4 and 5 — at and beyond the image
width. -/
theorem c10_widebar_bounds_cex :
    ((0 : ℚ) ≤ 0 ∧ (0 : ℚ) < 4 ∧ (0 : ℚ) ≤ 3 ∧ (3 : ℚ) < 4 ∧
      (0 : ℚ) ≤ 5 ∧ (5 : ℚ) < 40) ∧
    (findWideBarTopBottom blackMatrix ⟨0, 5⟩ ⟨3, 5⟩ 0 8 17 (-1)).lookQueries =
      [(4, 5), (5, 5)] ∧
    queryInBounds blackMatrix (4, 5) = false := by
  refine ⟨by norm_num, by with_unfolding_all rfl, by decide⟩

/-- C10 amended: for every vertex pair whose corner coordinates lie in
[0, width-1] x [0, height-1] (as the integer-coordinate corners located
by findVertices do) and wide-bar parameters with
0 ≤ startWideBar ≤ startWideBar + lenWideBar ≤ lenPattern, every pixel
test of findWideBarTopBottom at the walking position and its guarded
sideways neighbours, and every test of the thin-bar offset search, uses
in-bounds coordinates; the thin-bar look-ahead tests at columns
x + nextBarX and x + nextBarX + 1 are guaranteed a nonnegative column
and an in-bounds row, but their column may reach or exceed the image
width. -/
theorem c10_widebar_query_bounds (m : Matrix) (vs ve : Point)
    (startWideBar lenWideBar lenPattern rowStep : Int)
    (hvsx0 : 0 ≤ vs.x) (hvsx1 : vs.x ≤ (m.width : ℚ) - 1)
    (hvex0 : 0 ≤ ve.x) (hvex1 : ve.x ≤ (m.width : ℚ) - 1)
    (hvsy0 : 0 ≤ vs.y) (hvsy1 : vs.y ≤ (m.height : ℚ) - 1)
    (hsw : 0 ≤ startWideBar) (hlw : 0 ≤ lenWideBar)
    (hlen : startWideBar + lenWideBar ≤ lenPattern) (hlp : 0 < lenPattern) :
    (∀ q ∈ (findWideBarTopBottom m vs ve startWideBar lenWideBar lenPattern
      rowStep).mainQueries, queryInBounds m q = true) ∧
    (∀ q ∈ (findWideBarTopBottom m vs ve startWideBar lenWideBar lenPattern
      rowStep).lookQueries, queryLookBounds m q = true) := by
  unfold findWideBarTopBottom
  dsimp only []
  obtain ⟨hbs1, hbs2⟩ :=
    wbInterp_bounds vs ve startWideBar lenPattern hsw (by omega) hlp
  obtain ⟨hbe1, hbe2⟩ :=
    wbInterp_bounds vs ve (startWideBar + lenWideBar) lenPattern
      (by omega) hlen hlp
  set bs := wbInterp vs ve startWideBar lenPattern with hbsdef
  set be := wbInterp vs ve (startWideBar + lenWideBar) lenPattern with hbedef
  have hminx : (0 : ℚ) ≤ min vs.x ve.x := le_min hvsx0 hvex0
  have hmaxx : max vs.x ve.x ≤ (m.width : ℚ) - 1 := max_le hvsx1 hvex1
  have hmid0 : (0 : ℚ) ≤ (bs + be) / 2 := by
    have h1 := le_trans hminx hbs1
    have h2 := le_trans hminx hbe1
    linarith
  have hmax0 : (0 : ℚ) ≤ max bs be :=
    le_trans (le_trans hminx hbs1) (le_max_left bs be)
  set X := cppRound ((bs + be) / 2) with hXdef
  set Y := cppRound vs.y with hYdef
  set nbx0 := ratTrunc (max bs be + 1) with hndef
  have hX0 : 0 ≤ X := cppRound_nonneg hmid0
  have hXw : X ≤ (m.width : Int) - 1 := by
    apply cppRound_le hmid0
    push_cast
    have h1 := le_trans hbs2 hmaxx
    have h2 := le_trans hbe2 hmaxx
    linarith
  have hY0 : 0 ≤ Y := cppRound_nonneg hvsy0
  have hYh : Y ≤ (m.height : Int) - 1 := by
    apply cppRound_le hvsy0
    push_cast
    linarith
  have hnbx1 : 1 ≤ nbx0 := by
    rw [hndef, ratTrunc_of_nonneg (by linarith)]
    exact Int.le_floor.2 (by push_cast; linarith)
  have hXnbx : X ≤ nbx0 := by
    rw [hXdef, hndef, ratTrunc_of_nonneg (by linarith),
      cppRound_eq_floor hmid0]
    apply Int.floor_le_floor
    have h1 := le_max_left bs be
    have h2 := le_max_right bs be
    linarith
  have hsearch := nextBarSearch_ge m Y ((m.width : Int) - nbx0).toNat nbx0
  have hnext :
      0 ≤ (nextBarSearch m Y ((m.width : Int) - nbx0).toNat nbx0).1 - X := by
    omega
  constructor
  · intro q hq
    rcases List.mem_append.1 hq with hq2 | hq2
    · exact nextBarSearch_queries m Y hY0 (by omega) _ nbx0 hnbx1 q hq2
    · exact (wideBarLoop_queries m _ rowStep Y hnext _ X Y hX0 (by omega)
        hY0 (by omega)).1 q hq2
  · intro q hq
    exact (wideBarLoop_queries m _ rowStep Y hnext _ X Y hX0 (by omega)
      hY0 (by omega)).2 q hq

/-- C10 witness: the amended statement applied to the left guard bar of
the synthetic barcode image, from outer corner (0,8) to inner corner
(17,8). -/
theorem c10_widebar_query_bounds_witness :
    (0 : ℚ) ≤ 0 ∧ (0 : ℚ) ≤ (exampleMatrix.width : ℚ) - 1 ∧
    (0 : ℚ) ≤ 17 ∧ (17 : ℚ) ≤ (exampleMatrix.width : ℚ) - 1 ∧
    (0 : ℚ) ≤ 8 ∧ (8 : ℚ) ≤ (exampleMatrix.height : ℚ) - 1 ∧
    ((∀ q ∈ (findWideBarTopBottom exampleMatrix ⟨0, 8⟩ ⟨17, 8⟩ 0 8 17
      (-1)).mainQueries, queryInBounds exampleMatrix q = true) ∧
    (∀ q ∈ (findWideBarTopBottom exampleMatrix ⟨0, 8⟩ ⟨17, 8⟩ 0 8 17
      (-1)).lookQueries, queryLookBounds exampleMatrix q = true)) := by
  refine ⟨by norm_num, by norm_num [exampleMatrix], by norm_num,
    by norm_num [exampleMatrix], by norm_num, by norm_num [exampleMatrix],
    c10_widebar_query_bounds exampleMatrix ⟨0, 8⟩ ⟨17, 8⟩ 0 8 17 (-1)
      (by norm_num) (by norm_num [exampleMatrix]) (by norm_num)
      (by norm_num [exampleMatrix]) (by norm_num)
      (by norm_num [exampleMatrix]) (by norm_num) (by norm_num)
      (by norm_num) (by norm_num)⟩

end PDF417
